import Mathlib

/-!
Verification development for the jupyterlab-claude-code backend
(`jupyterlab_claude_code/yjs_bridge.py` and
`jupyterlab_claude_code/handlers.py`), shallowly embedded in Lean 4.

The embedding models:
  * notebook cell lists and the cell-mutation operations of
    `YjsBridge._modify_notebook` (insert / update / delete / move),
    with Python `list.insert` index-clamping semantics;
  * `YjsBridge.get_cell` and the cell view produced by
    `get_notebook_content`;
  * the iopub event-collection loop of `YjsBridge.execute_code`;
  * the action dispatch of `ClaudeCodeWebSocketHandler._handle_request`;
  * an explicit interleaving semantics for the read-modify-write that
    `_modify_notebook` performs against the contents manager (a read
    step that snapshots the stored cell list, then a write step that
    applies the operation to the snapshot and saves the result).

Opaque payloads (MIME data bundles, metadata dictionaries) are modelled
as plain strings or association lists: only their identity matters to
the properties proved here.
-/

namespace NbBridge

/-- Decidable equality for `Except`, needed to evaluate results of the
fallible notebook operations on concrete inputs. -/
instance {ε α : Type} [DecidableEq ε] [DecidableEq α] : DecidableEq (Except ε α) :=
  fun a b =>
    match a, b with
    | .error e₁, .error e₂ =>
      if h : e₁ = e₂ then .isTrue (by rw [h]) else .isFalse (by intro hc; cases hc; exact h rfl)
    | .ok a₁, .ok a₂ =>
      if h : a₁ = a₂ then .isTrue (by rw [h]) else .isFalse (by intro hc; cases hc; exact h rfl)
    | .error _, .ok _ => .isFalse (by intro hc; cases hc)
    | .ok _, .error _ => .isFalse (by intro hc; cases hc)

/-- Error classes raised by the bridge code: `ValueError`, `IndexError`
and `RuntimeError` in the Python source. -/
inductive PyError : Type
  | valueError (msg : String)
  | indexError (msg : String)
  | runtimeError (msg : String)
deriving Repr, DecidableEq

/-- One notebook cell, as stored in the contents-manager document.
`outputs` and `execution_count` are `none` when the key is absent from
the cell dictionary (markdown cells); for code cells `execution_count`
is `some none`, meaning the key is present with value `null`. -/
structure Cell : Type where
  cell_type : String
  source : String
  metadata : List (String × String)
  outputs : Option (List String)
  execution_count : Option (Option Int)
deriving Repr, DecidableEq, Inhabited

/-- Python `list.insert(i, x)` semantics: a negative index counts from
the end and clamps at 0, an index past the end clamps to appending. -/
def pyListInsert {α : Type} (xs : List α) (i : Int) (x : α) : List α :=
  let k : Nat := if i < 0 then ((xs.length : Int) + i).toNat else min i.toNat xs.length
  xs.take k ++ x :: xs.drop k

/-- Replace the `source` field of the cell at position `idx`, leaving
every other cell and every other field untouched (the effect of
`cells[idx]["source"] = source`). -/
def setCellSource : List Cell → Nat → String → List Cell
  | [], _, _ => []
  | c :: cs, 0, src => { c with source := src } :: cs
  | c :: cs, n + 1, src => c :: setCellSource cs n src

/-- The fresh cell built by the `insert` branch of `_modify_notebook`:
empty metadata, and for code cells an empty `outputs` list and a null
`execution_count`. -/
def newInsertCell (cell_type source : String) : Cell :=
  { cell_type := cell_type
    source := source
    metadata := []
    outputs := if cell_type = "code" then some [] else none
    execution_count := if cell_type = "code" then some none else none }

/-- The result dictionary returned by a successful `_modify_notebook`:
`{"success": True, "operation": operation, "cell_count": len(cells)}`. -/
structure ModResult : Type where
  success : Bool
  operation : String
  cell_count : Nat
deriving Repr, DecidableEq

/-- The four mutation operations dispatched by `_modify_notebook`. -/
inductive ModifyOp : Type
  | insert (cell_index : Int) (cell_type source : String)
  | update (cell_index : Int) (source : String)
  | delete (cell_index : Int)
  | move (from_index to_index : Int)
deriving Repr, DecidableEq

/-- `YjsBridge._modify_notebook`, applied to the cell list read from the
contents manager.  Returns the saved cell list together with the result
dictionary, or the `IndexError` the Python code raises.  The `insert`
branch performs no bounds check (`cells.insert` clamps); `update` and
`delete` require `0 <= idx < len(cells)`; `move` requires
`0 <= from_index < len(cells)` and `0 <= to_index <= len(cells)`, then
pops and re-inserts. -/
def modify_notebook (cells : List Cell) (op : ModifyOp) :
    Except PyError (List Cell × ModResult) :=
  match op with
  | .insert cell_index cell_type source =>
    let cells' := pyListInsert cells cell_index (newInsertCell cell_type source)
    .ok (cells', ⟨true, "insert", cells'.length⟩)
  | .update idx source =>
    if idx < 0 ∨ (cells.length : Int) ≤ idx then
      .error (.indexError ("Cell index " ++ toString idx ++ " out of range"))
    else
      let cells' := setCellSource cells idx.toNat source
      .ok (cells', ⟨true, "update", cells'.length⟩)
  | .delete idx =>
    if idx < 0 ∨ (cells.length : Int) ≤ idx then
      .error (.indexError ("Cell index " ++ toString idx ++ " out of range"))
    else
      let cells' := cells.eraseIdx idx.toNat
      .ok (cells', ⟨true, "delete", cells'.length⟩)
  | .move from_index to_index =>
    if from_index < 0 ∨ (cells.length : Int) ≤ from_index then
      .error (.indexError ("from_index " ++ toString from_index ++ " out of range"))
    else if to_index < 0 ∨ (cells.length : Int) < to_index then
      .error (.indexError ("to_index " ++ toString to_index ++ " out of range"))
    else
      let cell := cells.getD from_index.toNat default
      let popped := cells.eraseIdx from_index.toNat
      let cells' := pyListInsert popped to_index cell
      .ok (cells', ⟨true, "move", cells'.length⟩)

/-- The per-cell view built by `get_notebook_content`: index, type,
source, outputs (defaulting to the empty list when the key is absent)
and metadata. -/
structure CellView : Type where
  index : Nat
  cell_type : String
  source : String
  outputs : List String
  metadata : List (String × String)
deriving Repr, DecidableEq, Inhabited

/-- The `cells` list of the dictionary returned by
`get_notebook_content`: each stored cell paired with its index. -/
def notebook_content_cells (cells : List Cell) : List CellView :=
  cells.enum.map fun p =>
    ⟨p.1, p.2.cell_type, p.2.source, p.2.outputs.getD [], p.2.metadata⟩

/-- `YjsBridge.get_cell` on an integer `cell_index`, given the cell list
of the notebook (the claim presupposes the notebook content fetch
succeeds).  Raises `IndexError` outside `[0, len(cells))`; it performs
no mutation, so the notebook state is not threaded through. -/
def get_cell (cells : List Cell) (cell_index : Int) : Except PyError CellView :=
  let viewCells := notebook_content_cells cells
  if cell_index < 0 ∨ (viewCells.length : Int) ≤ cell_index then
    .error (.indexError ("Cell index " ++ toString cell_index ++ " out of range (0-"
      ++ toString ((viewCells.length : Int) - 1) ++ ")"))
  else
    .ok (viewCells.getD cell_index.toNat default)

/-! ### The iopub event-collection loop of `YjsBridge.execute_code` -/

/-- Content of one iopub message, discriminated by `msg_type`.
`statusMsg` carries `content["execution_state"]`; `otherMsg` stands for
any `msg_type` the loop has no branch for.  MIME data bundles and
metadata dictionaries are opaque strings here. -/
inductive MsgPayload : Type
  | statusMsg (execution_state : String)
  | streamMsg (name text : String)
  | executeResult (data metadata : String)
  | displayData (data metadata : String)
  | errorMsg (ename evalue : String) (traceback : List String)
  | otherMsg (msg_type : String)
deriving Repr, DecidableEq

/-- One outcome of `client.get_iopub_msg(timeout=30)`: either a message
with its parent-header `msg_id`, or a `TimeoutError`. -/
inductive IopubEvent : Type
  | msg (parent_msg_id : String) (payload : MsgPayload)
  | timeoutEvt
deriving Repr, DecidableEq

/-- One entry of the `outputs` list built by `execute_code`; `dataOut`
keeps the originating `msg_type` (`"execute_result"` or
`"display_data"`) in its `output_type` field, as the source does. -/
inductive OutputEntry : Type
  | streamOut (name text : String)
  | dataOut (output_type : String) (data metadata : String)
  | errorOut (ename evalue : String) (traceback : List String)
deriving Repr, DecidableEq

/-- Whether a status payload reports `execution_state == "idle"`. -/
def isIdle : MsgPayload → Bool
  | .statusMsg st => st = "idle"
  | _ => false

/-- The effect of one non-terminating loop iteration on the `outputs`
list: the `elif` chain of `execute_code` appends one entry for stream,
execute_result, display_data and error messages, and appends nothing
for any other message type. -/
def appendOutput (acc : List OutputEntry) : MsgPayload → List OutputEntry
  | .streamMsg name text => acc ++ [.streamOut name text]
  | .executeResult data metadata => acc ++ [.dataOut "execute_result" data metadata]
  | .displayData data metadata => acc ++ [.dataOut "display_data" data metadata]
  | .errorMsg ename evalue traceback => acc ++ [.errorOut ename evalue traceback]
  | .statusMsg _ => acc
  | .otherMsg _ => acc

/-- How the `while True` loop of `execute_code` ended: on an idle status
message, on a `TimeoutError` from `get_iopub_msg`, or (only possible in
the model, where the event stream is a finite list) by running out of
events. -/
inductive Terminal : Type
  | idleDone
  | timedOut
  | exhausted
deriving Repr, DecidableEq

/-- The `while True` loop of `execute_code`: a `TimeoutError` breaks the
loop; a message whose parent `msg_id` differs from the submitted
execution is skipped (`continue`); a matching idle status message
breaks the loop; every other matching message is handed to the `elif`
chain and the loop continues. -/
def execLoop (msg_id : String) : List IopubEvent → List OutputEntry →
    List OutputEntry × Terminal
  | [], acc => (acc, .exhausted)
  | .timeoutEvt :: _, acc => (acc, .timedOut)
  | .msg pid payload :: rest, acc =>
    if pid = msg_id then
      if isIdle payload then (acc, .idleDone)
      else execLoop msg_id rest (appendOutput acc payload)
    else execLoop msg_id rest acc

/-- The dictionary returned by `execute_code`. -/
structure ExecResult : Type where
  outputs : List OutputEntry
  success : Bool
deriving Repr, DecidableEq

/-- `YjsBridge.execute_code` after submission, as a function of the
execution's `msg_id` and the iopub event stream: it runs the collection
loop and returns `{"outputs": outputs, "success": True}` — the source
returns `success = True` on every exit of the loop, whether it ended on
an idle status message or on a `TimeoutError`. -/
def execute_code (msg_id : String) (events : List IopubEvent) : ExecResult :=
  ⟨(execLoop msg_id events []).1, true⟩

/-- The effect of one event on the `outputs` accumulator when the loop
does not terminate on it: non-matching messages and timeouts leave it
unchanged, matching messages go through the `elif` chain. -/
def stepEvent (msg_id : String) (acc : List OutputEntry) : IopubEvent → List OutputEntry
  | .timeoutEvt => acc
  | .msg pid payload => if pid = msg_id then appendOutput acc payload else acc

/-- Whether an event makes the loop stop: a `TimeoutError`, or an idle
status message whose parent `msg_id` matches the execution. -/
def isTerminalEvt (msg_id : String) : IopubEvent → Bool
  | .timeoutEvt => true
  | .msg pid payload => if pid = msg_id then isIdle payload else false

/-! ### The action dispatch of `ClaudeCodeWebSocketHandler._handle_request` -/

/-- The fields of an inbound request envelope that the dispatcher
inspects.  `id` and `action` are `none` when the key is absent; params
and `notebook_id` are carried along opaquely. -/
structure RequestData : Type where
  id : Option String
  action : Option String
  params : List (String × String)
  notebook_id : Option String
deriving Repr, DecidableEq

/-- An outbound response envelope, as written by `_send_response` and
`_send_error`: both set `type` to `"response"`; a success response
carries `data`, an error response carries `error`. -/
structure ResponseMsg : Type where
  id : Option String
  type : String
  success : Bool
  data : Option String
  error : Option String
deriving Repr, DecidableEq

/-- `_send_response(request_id, data)`. -/
def sendResponse (request_id : String) (d : String) : ResponseMsg :=
  ⟨some request_id, "response", true, some d, none⟩

/-- `_send_error(message, request_id)`. -/
def sendError (message : String) (request_id : Option String) : ResponseMsg :=
  ⟨request_id, "response", false, none, some message⟩

/-- The keys of the fixed `handlers` dictionary built in
`_handle_request`. -/
def handlerNames : List String :=
  ["list_notebooks", "get_active_notebook", "get_notebook_content",
   "get_cell", "insert_cell", "update_cell", "delete_cell", "move_cell",
   "execute_cell", "execute_code", "interrupt_kernel", "get_kernel_status",
   "list_variables", "get_cell_outputs", "clear_outputs"]

/-- `ClaudeCodeWebSocketHandler._handle_request`.  `env` gives the
outcome of invoking each known handler on this request (a result value,
or the message of the exception it raised); `freshId` is the
`str(uuid.uuid4())` default used when the envelope has no `id`.  The
function is total: every path produces exactly one response envelope —
the `try`/`except Exception` around the handler call converts any
handler failure into an error response, so no failure propagates
outward and the link is never closed by dispatch. -/
def handle_request (env : String → Except String String) (freshId : String)
    (data : RequestData) : ResponseMsg :=
  let request_id := data.id.getD freshId
  match data.action with
  | none => sendError "Missing action" (some request_id)
  | some a =>
    if a = "" then sendError "Missing action" (some request_id)
    else if a ∈ handlerNames then
      match env a with
      | .ok result => sendResponse request_id result
      | .error e => sendError e (some request_id)
    else sendError ("Unknown action: " ++ a) (some request_id)

/-! ### Interleaving semantics for the `_modify_notebook` read-modify-write

`_modify_notebook` reads the notebook from the contents manager
(`contents_manager.get`), mutates the cell list of that snapshot in
memory, and saves the snapshot back (`contents_manager.save`).  There
is no lock anywhere on this path, so two in-flight calls against the
same path may interleave their read and write steps.  The model below
makes the two steps explicit and runs a set of calls under an arbitrary
schedule. -/

/-- The progress of one in-flight `_modify_notebook` call: not yet
started, holding the snapshot its `get` returned, or finished
(`some result` on success, `none` when it raised before saving). -/
inductive TaskState : Type
  | pendingTask (op : ModifyOp)
  | readDone (op : ModifyOp) (snapshot : List Cell)
  | finished (result : Option ModResult)
deriving Repr, DecidableEq

/-- The stored notebook (the contents manager's copy of the cell list)
together with every in-flight call. -/
structure SchedState : Type where
  store : List Cell
  tasks : List TaskState
deriving Repr, DecidableEq

/-- Advance call `i` by one step: a pending call performs its
`contents_manager.get`, snapshotting the current store; a call holding
a snapshot applies its operation to that snapshot and, on success,
performs `contents_manager.save`, replacing the store with its modified
snapshot (on an `IndexError` the save is never reached and the store is
untouched); a finished call does nothing. -/
def stepTask (st : SchedState) (i : Nat) : SchedState :=
  match st.tasks.getD i (.finished none) with
  | .pendingTask op => { st with tasks := st.tasks.set i (.readDone op st.store) }
  | .readDone op snapshot =>
    match modify_notebook snapshot op with
    | .ok (cells', res) => ⟨cells', st.tasks.set i (.finished (some res))⟩
    | .error _ => { st with tasks := st.tasks.set i (.finished none) }
  | .finished _ => st

/-- Run a schedule: at each tick the named call advances one step. -/
def runSched (st : SchedState) : List Nat → SchedState
  | [] => st
  | i :: rest => runSched (stepTask st i) rest

/-- The schedule that runs calls `k, k+1, ...` serially: each call's
read and write complete before the next call starts. -/
def serialFrom (k : Nat) : Nat → List Nat
  | 0 => []
  | n + 1 => k :: k :: serialFrom (k + 1) n

/-- The fully serial schedule for `n` calls. -/
def serialSched (n : Nat) : List Nat :=
  serialFrom 0 n

/-! ### Helper lemmas -/

theorem pyListInsert_length {α : Type} (xs : List α) (i : Int) (x : α) :
    (pyListInsert xs i x).length = xs.length + 1 := by
  have h : ∀ k : Nat, k ≤ xs.length →
      (xs.take k ++ x :: xs.drop k).length = xs.length + 1 := by
    intro k hk
    simp [List.length_take, List.length_drop]
    omega
  unfold pyListInsert
  by_cases hi : i < 0
  · simp only [if_pos hi]
    exact h _ (by omega)
  · simp only [if_neg hi]
    exact h _ (Nat.min_le_right _ _)

theorem execLoop_append (msg_id : String) (pre evs : List IopubEvent)
    (acc : List OutputEntry) (h : ∀ e ∈ pre, isTerminalEvt msg_id e = false) :
    execLoop msg_id (pre ++ evs) acc
      = execLoop msg_id evs (pre.foldl (stepEvent msg_id) acc) := by
  induction pre generalizing acc with
  | nil => simp
  | cons e rest ih =>
    have he : isTerminalEvt msg_id e = false := h e (by simp)
    have hrest : ∀ x ∈ rest, isTerminalEvt msg_id x = false :=
      fun x hx => h x (by simp [hx])
    cases e with
    | timeoutEvt => simp [isTerminalEvt] at he
    | msg pid payload =>
      by_cases hp : pid = msg_id
      · subst hp
        have hidle : isIdle payload = false := by simpa [isTerminalEvt] using he
        simp [execLoop, hidle, stepEvent, ih _ hrest]
      · simp [execLoop, hp, stepEvent, ih _ hrest]

theorem eraseIdx_reinsert {α : Type} (xs : List α) (n : Nat) (d : α) (h : n < xs.length) :
    (xs.eraseIdx n).take n ++ xs.getD n d :: (xs.eraseIdx n).drop n = xs := by
  induction xs generalizing n with
  | nil => simp at h
  | cons c cs ih =>
    cases n with
    | zero => simp [List.eraseIdx]
    | succ m =>
      have hm : m < cs.length := by simpa using Nat.lt_of_succ_lt_succ h
      simpa using ih m hm

theorem notebook_content_cells_length (cells : List Cell) :
    (notebook_content_cells cells).length = cells.length := by
  simp [notebook_content_cells]

theorem setCellSource_length (cells : List Cell) (n : Nat) (src : String) :
    (setCellSource cells n src).length = cells.length := by
  induction cells generalizing n with
  | nil => rfl
  | cons c cs ih =>
    cases n with
    | zero => rfl
    | succ m => simp [setCellSource, ih]

theorem setCellSource_getD_ne (cells : List Cell) (n j : Nat) (src : String) (d : Cell)
    (h : j ≠ n) : (setCellSource cells n src).getD j d = cells.getD j d := by
  induction cells generalizing n j with
  | nil => rfl
  | cons c cs ih =>
    cases n with
    | zero =>
      cases j with
      | zero => exact absurd rfl h
      | succ jm => rfl
    | succ m =>
      cases j with
      | zero => rfl
      | succ jm => simpa [setCellSource] using ih m jm (by omega)

theorem setCellSource_getD_eq (cells : List Cell) (n : Nat) (src : String) (d : Cell)
    (h : n < cells.length) :
    (setCellSource cells n src).getD n d = { cells.getD n d with source := src } := by
  induction cells generalizing n with
  | nil => simp at h
  | cons c cs ih =>
    cases n with
    | zero => rfl
    | succ m =>
      have hm : m < cs.length := by simpa using Nat.lt_of_succ_lt_succ h
      simpa [setCellSource] using ih m hm

theorem getD_append_length {α : Type} (pre : List α) (x : α) (rest : List α) (d : α) :
    (pre ++ x :: rest).getD pre.length d = x := by
  induction pre with
  | nil => rfl
  | cons a as ih => simpa using ih

theorem set_append_length {α : Type} (pre : List α) (x y : α) (rest : List α) :
    (pre ++ x :: rest).set pre.length y = pre ++ y :: rest := by
  induction pre with
  | nil => rfl
  | cons a as ih => simp [List.set, ih]

theorem stepTask_pending (store : List Cell) (done rest : List TaskState) (op : ModifyOp) :
    stepTask ⟨store, done ++ TaskState.pendingTask op :: rest⟩ done.length
      = ⟨store, done ++ TaskState.readDone op store :: rest⟩ := by
  unfold stepTask
  rw [getD_append_length]
  simp only [set_append_length]

theorem stepTask_insert_write (store snap : List Cell) (done rest : List TaskState)
    (i : Int) (ct src : String) :
    stepTask ⟨store, done ++ TaskState.readDone (ModifyOp.insert i ct src) snap :: rest⟩
        done.length
      = ⟨pyListInsert snap i (newInsertCell ct src),
         done ++ TaskState.finished (some ⟨true, "insert",
           (pyListInsert snap i (newInsertCell ct src)).length⟩) :: rest⟩ := by
  unfold stepTask
  rw [getD_append_length]
  simp only [modify_notebook, set_append_length]

theorem runSched_serial_go (store : List Cell) (done : List TaskState)
    (ins : List (Int × String × String)) :
    (runSched ⟨store, done ++ ins.map
        (fun p => TaskState.pendingTask (ModifyOp.insert p.1 p.2.1 p.2.2))⟩
      (serialFrom done.length ins.length)).store.length
      = store.length + ins.length := by
  induction ins generalizing store done with
  | nil => simp [serialFrom, runSched]
  | cons p ps ih =>
    have hstep :
        runSched ⟨store, done ++ (p :: ps).map
            (fun q => TaskState.pendingTask (ModifyOp.insert q.1 q.2.1 q.2.2))⟩
          (serialFrom done.length (p :: ps).length)
        = runSched ⟨pyListInsert store p.1 (newInsertCell p.2.1 p.2.2),
            (done ++ [TaskState.finished (some ⟨true, "insert",
              (pyListInsert store p.1 (newInsertCell p.2.1 p.2.2)).length⟩)]) ++ ps.map
              (fun q => TaskState.pendingTask (ModifyOp.insert q.1 q.2.1 q.2.2))⟩
          (serialFrom (done.length + 1) ps.length) := by
      simp only [List.map_cons, List.length_cons, serialFrom, runSched,
        stepTask_pending, stepTask_insert_write, List.append_assoc, List.cons_append,
        List.nil_append]
    rw [hstep]
    have hlen : (done ++ [TaskState.finished (some ⟨true, "insert",
        (pyListInsert store p.1 (newInsertCell p.2.1 p.2.2)).length⟩)]).length
        = done.length + 1 := by simp
    rw [← hlen]
    rw [ih]
    rw [pyListInsert_length]
    simp [List.length_cons]
    omega

/-! ### Claim theorems -/

/-- Claim C1 (counterexample): an execution run whose first wait times
out before any idle status event does NOT report `success = false` —
the source's `execute_code` returns `success = True` after the
`TimeoutError` breaks the collection loop. -/
theorem execute_code_timeout_success_counterexample :
    (execute_code "m" [IopubEvent.timeoutEvt]).success ≠ false := by
  decide

/-- Claim C1 (amended): when the per-event wait times out before any
idle status event has been received, the run terminates immediately
(events after the timeout are never consumed) and returns exactly the
outputs collected so far, but it reports `success = true`, the same
value a normal idle termination reports — the code does not distinguish
the two in its returned success flag. -/
theorem execute_code_timeout_terminates (msg_id : String) (pre rest : List IopubEvent)
    (h : ∀ e ∈ pre, isTerminalEvt msg_id e = false) :
    execLoop msg_id (pre ++ IopubEvent.timeoutEvt :: rest) []
      = (pre.foldl (stepEvent msg_id) [], Terminal.timedOut)
    ∧ execute_code msg_id (pre ++ IopubEvent.timeoutEvt :: rest)
      = ⟨pre.foldl (stepEvent msg_id) [], true⟩ := by
  have h1 : execLoop msg_id (pre ++ IopubEvent.timeoutEvt :: rest) []
      = (pre.foldl (stepEvent msg_id) [], Terminal.timedOut) := by
    rw [execLoop_append msg_id pre _ [] h]
    rfl
  exact ⟨h1, by simp [execute_code, h1]⟩

/-- Claim C1 (witness). -/
theorem execute_code_timeout_terminates_witness :
    execLoop "m" ([IopubEvent.msg "m" (MsgPayload.streamMsg "stdout" "a")]
        ++ IopubEvent.timeoutEvt :: [IopubEvent.msg "m" (MsgPayload.statusMsg "idle")]) []
      = ([IopubEvent.msg "m" (MsgPayload.streamMsg "stdout" "a")].foldl (stepEvent "m") [],
         Terminal.timedOut)
    ∧ execute_code "m" ([IopubEvent.msg "m" (MsgPayload.streamMsg "stdout" "a")]
        ++ IopubEvent.timeoutEvt :: [IopubEvent.msg "m" (MsgPayload.statusMsg "idle")])
      = ⟨[IopubEvent.msg "m" (MsgPayload.streamMsg "stdout" "a")].foldl (stepEvent "m") [],
         true⟩ :=
  execute_code_timeout_terminates "m"
    [IopubEvent.msg "m" (MsgPayload.streamMsg "stdout" "a")]
    [IopubEvent.msg "m" (MsgPayload.statusMsg "idle")]
    (by decide)

/-- Claim C2: events with a non-matching parent correlation id are
discarded (they neither append an output nor terminate the loop), each
matching stream / execute_result / display_data / error event appends
exactly one output entry at the end of the list (so arrival order is
preserved), and a matching idle status event terminates the run with
`success = true` and exactly the outputs collected so far; in
particular the sequence `[Stream("stdout","1\n"), Result(text/plain 1),
Idle]` yields those two outputs and `success = true`. -/
theorem execute_code_idle_run (msg_id pid name text data metadata ename evalue : String)
    (traceback : List String) (p : MsgPayload) (pre rest evs : List IopubEvent)
    (acc : List OutputEntry)
    (hpre : ∀ e ∈ pre, isTerminalEvt msg_id e = false)
    (hpid : pid ≠ msg_id) :
    execute_code msg_id (pre ++ IopubEvent.msg msg_id (MsgPayload.statusMsg "idle") :: rest)
      = ⟨pre.foldl (stepEvent msg_id) [], true⟩
    ∧ stepEvent msg_id acc (IopubEvent.msg pid p) = acc
    ∧ execLoop msg_id (IopubEvent.msg pid p :: evs) acc = execLoop msg_id evs acc
    ∧ stepEvent msg_id acc (IopubEvent.msg msg_id (MsgPayload.streamMsg name text))
      = acc ++ [OutputEntry.streamOut name text]
    ∧ stepEvent msg_id acc (IopubEvent.msg msg_id (MsgPayload.executeResult data metadata))
      = acc ++ [OutputEntry.dataOut "execute_result" data metadata]
    ∧ stepEvent msg_id acc (IopubEvent.msg msg_id (MsgPayload.displayData data metadata))
      = acc ++ [OutputEntry.dataOut "display_data" data metadata]
    ∧ stepEvent msg_id acc (IopubEvent.msg msg_id (MsgPayload.errorMsg ename evalue traceback))
      = acc ++ [OutputEntry.errorOut ename evalue traceback]
    ∧ execute_code "m"
        [IopubEvent.msg "m" (MsgPayload.streamMsg "stdout" "1\n"),
         IopubEvent.msg "m" (MsgPayload.executeResult "text/plain 1" ""),
         IopubEvent.msg "m" (MsgPayload.statusMsg "idle")]
      = ⟨[OutputEntry.streamOut "stdout" "1\n",
          OutputEntry.dataOut "execute_result" "text/plain 1" ""], true⟩ := by
  refine ⟨?_, ?_, ?_, ?_, ?_, ?_, ?_, by decide⟩
  · have h1 : execLoop msg_id
        (pre ++ IopubEvent.msg msg_id (MsgPayload.statusMsg "idle") :: rest) []
        = (pre.foldl (stepEvent msg_id) [], Terminal.idleDone) := by
      rw [execLoop_append msg_id pre _ [] hpre]
      simp [execLoop, isIdle]
    simp [execute_code, h1]
  · simp [stepEvent, hpid]
  · simp [execLoop, hpid]
  · simp [stepEvent, appendOutput]
  · simp [stepEvent, appendOutput]
  · simp [stepEvent, appendOutput]
  · simp [stepEvent, appendOutput]

/-- Claim C2 (witness). -/
theorem execute_code_idle_run_witness :
    execute_code "m"
        ([IopubEvent.msg "m" (MsgPayload.streamMsg "stdout" "1\n"),
          IopubEvent.msg "other" (MsgPayload.statusMsg "idle"),
          IopubEvent.msg "m" (MsgPayload.executeResult "text/plain 1" "")]
          ++ IopubEvent.msg "m" (MsgPayload.statusMsg "idle") :: [])
      = ⟨[IopubEvent.msg "m" (MsgPayload.streamMsg "stdout" "1\n"),
          IopubEvent.msg "other" (MsgPayload.statusMsg "idle"),
          IopubEvent.msg "m" (MsgPayload.executeResult "text/plain 1" "")].foldl
            (stepEvent "m") [], true⟩
    ∧ stepEvent "m" [] (IopubEvent.msg "other" (MsgPayload.streamMsg "stdout" "x")) = []
    ∧ execLoop "m" (IopubEvent.msg "other" (MsgPayload.streamMsg "stdout" "x") :: []) []
      = execLoop "m" [] []
    ∧ stepEvent "m" [] (IopubEvent.msg "m" (MsgPayload.streamMsg "n" "t"))
      = [] ++ [OutputEntry.streamOut "n" "t"]
    ∧ stepEvent "m" [] (IopubEvent.msg "m" (MsgPayload.executeResult "d" "md"))
      = [] ++ [OutputEntry.dataOut "execute_result" "d" "md"]
    ∧ stepEvent "m" [] (IopubEvent.msg "m" (MsgPayload.displayData "d" "md"))
      = [] ++ [OutputEntry.dataOut "display_data" "d" "md"]
    ∧ stepEvent "m" [] (IopubEvent.msg "m" (MsgPayload.errorMsg "E" "v" ["t"]))
      = [] ++ [OutputEntry.errorOut "E" "v" ["t"]]
    ∧ execute_code "m"
        [IopubEvent.msg "m" (MsgPayload.streamMsg "stdout" "1\n"),
         IopubEvent.msg "m" (MsgPayload.executeResult "text/plain 1" ""),
         IopubEvent.msg "m" (MsgPayload.statusMsg "idle")]
      = ⟨[OutputEntry.streamOut "stdout" "1\n",
          OutputEntry.dataOut "execute_result" "text/plain 1" ""], true⟩ :=
  execute_code_idle_run "m" "other" "n" "t" "d" "md" "E" "v" ["t"]
    (MsgPayload.streamMsg "stdout" "x")
    [IopubEvent.msg "m" (MsgPayload.streamMsg "stdout" "1\n"),
     IopubEvent.msg "other" (MsgPayload.statusMsg "idle"),
     IopubEvent.msg "m" (MsgPayload.executeResult "text/plain 1" "")]
    [] [] [] (by decide) (by decide)

/-- Claim C3: on an inbound request whose action is not in the fixed
handler map the dispatcher answers with a `success = false` response
carrying `error = "Unknown action: <name>"`, and when a known handler
raises, the failure is converted at this boundary into a
`success = false` response carrying the failure's message; the
dispatch function is total — every path yields exactly one response
envelope, so no failure propagates outward and the link is not
closed. -/
theorem handle_request_failure_paths (env : String → Except String String)
    (freshId a b m : String) (dataA dataB : RequestData)
    (ha : dataA.action = some a) (hna : a ∉ handlerNames) (hne : a ≠ "")
    (hb : dataB.action = some b) (hinb : b ∈ handlerNames) (henv : env b = .error m) :
    handle_request env freshId dataA
      = sendError ("Unknown action: " ++ a) (some (dataA.id.getD freshId))
    ∧ handle_request env freshId dataB
      = sendError m (some (dataB.id.getD freshId)) := by
  have hbne : b ≠ "" := by
    intro hcontra
    rw [hcontra] at hinb
    simp [handlerNames] at hinb
  constructor
  · simp [handle_request, ha, hne, hna]
  · simp [handle_request, hb, hbne, hinb, henv]

/-- Claim C3 (witness). -/
theorem handle_request_failure_paths_witness :
    handle_request (fun _ => Except.error "boom") "fresh"
        ⟨some "r1", some "frobnicate", [], none⟩
      = sendError ("Unknown action: " ++ "frobnicate")
          (some ((some "r1").getD "fresh"))
    ∧ handle_request (fun _ => Except.error "boom") "fresh"
        ⟨none, some "get_cell", [], none⟩
      = sendError "boom" (some ((none : Option String).getD "fresh")) :=
  handle_request_failure_paths (fun _ => Except.error "boom") "fresh"
    "frobnicate" "get_cell" "boom"
    ⟨some "r1", some "frobnicate", [], none⟩
    ⟨none, some "get_cell", [], none⟩
    rfl (by decide) (by decide) rfl (by decide) rfl

/-- Claim C4: a matching error event appends an `Error{name, message,
trace}` entry and the loop continues on the remaining events — an error
event is never terminal; only a matching idle status event or a
wait-timeout stops the loop. -/
theorem execute_code_error_event_continues (msg_id ename evalue : String)
    (traceback : List String) (rest : List IopubEvent) (acc : List OutputEntry) :
    execLoop msg_id
        (IopubEvent.msg msg_id (MsgPayload.errorMsg ename evalue traceback) :: rest) acc
      = execLoop msg_id rest (acc ++ [OutputEntry.errorOut ename evalue traceback])
    ∧ isTerminalEvt msg_id
        (IopubEvent.msg msg_id (MsgPayload.errorMsg ename evalue traceback)) = false
    ∧ execLoop msg_id (IopubEvent.msg msg_id (MsgPayload.statusMsg "idle") :: rest) acc
      = (acc, Terminal.idleDone)
    ∧ execLoop msg_id (IopubEvent.timeoutEvt :: rest) acc = (acc, Terminal.timedOut) := by
  refine ⟨?_, ?_, ?_, rfl⟩
  · simp [execLoop, isIdle, appendOutput]
  · simp [isTerminalEvt, isIdle]
  · simp [execLoop, isIdle]

/-- Claim C5: `get_cell` with an integer `cell_index` outside
`[0, len(cells))` fails with exactly the `IndexError` raised by the
source ("Cell index i out of range (0-(n-1))"), never any other error;
`get_cell` is a pure read, so the notebook is unchanged. -/
theorem get_cell_out_of_range (cells : List Cell) (i : Int)
    (h : i < 0 ∨ (cells.length : Int) ≤ i) :
    get_cell cells i
      = .error (.indexError ("Cell index " ++ toString i ++ " out of range (0-"
          ++ toString ((cells.length : Int) - 1) ++ ")")) := by
  simp only [get_cell, notebook_content_cells_length]
  rw [if_pos h]

/-- Claim C5 (witness). -/
theorem get_cell_out_of_range_witness :
    get_cell [newInsertCell "code" "a"] 5
      = .error (.indexError ("Cell index " ++ toString (5 : Int) ++ " out of range (0-"
          ++ toString (([newInsertCell "code" "a"].length : Int) - 1) ++ ")")) :=
  get_cell_out_of_range [newInsertCell "code" "a"] 5 (by decide)

theorem pyListInsert_natCast {α : Type} (xs : List α) (n : Nat) (x : α)
    (hn : n ≤ xs.length) : pyListInsert xs (n : Int) x = xs.take n ++ x :: xs.drop n := by
  simp only [pyListInsert]
  have h0 : ¬ ((n : Int) < 0) := by omega
  rw [if_neg h0]
  have h1 : ((n : Int)).toNat = n := by omega
  rw [h1, Nat.min_eq_left hn]

/-- Claim C6 (counterexample): two concurrently issued `insert_cell`
calls against the same path, interleaved as read₀ read₁ write₀ write₁,
both report success with `cell_count = 1`, and the stored notebook ends
with 1 cell, not `0 + 2`: the second save overwrites the first because
`_modify_notebook` has no per-path mutual-exclusion section around its
read-modify-write. -/
theorem insert_cell_race_counterexample :
    (runSched ⟨[], [TaskState.pendingTask (ModifyOp.insert 0 "code" "x"),
                    TaskState.pendingTask (ModifyOp.insert 0 "code" "x")]⟩
        [0, 1, 0, 1]).store.length = 1
    ∧ (runSched ⟨[], [TaskState.pendingTask (ModifyOp.insert 0 "code" "x"),
                      TaskState.pendingTask (ModifyOp.insert 0 "code" "x")]⟩
        [0, 1, 0, 1]).tasks
      = [TaskState.finished (some ⟨true, "insert", 1⟩),
         TaskState.finished (some ⟨true, "insert", 1⟩)]
    ∧ (1 : Nat) ≠ ([] : List Cell).length + 2 := by
  decide

/-- Claim C6 (amended): every `insert_cell` call succeeds and grows its
snapshot by exactly one cell, and when the N calls are serialized —
each call's read-modify-write completes before the next begins — the
final cell count is the initial count plus N; the source has no
per-path mutual-exclusion section, so this count is not guaranteed for
arbitrary interleavings of the unguarded read-modify-write. -/
theorem insert_cell_serial_count (store : List Cell)
    (ins : List (Int × String × String)) :
    (runSched ⟨store, ins.map
        (fun p => TaskState.pendingTask (ModifyOp.insert p.1 p.2.1 p.2.2))⟩
      (serialSched ins.length)).store.length = store.length + ins.length
    ∧ ∀ (snap : List Cell) (i : Int) (ct src : String),
        modify_notebook snap (.insert i ct src)
          = .ok (pyListInsert snap i (newInsertCell ct src),
                 ⟨true, "insert", snap.length + 1⟩) := by
  constructor
  · simpa [serialSched] using runSched_serial_go store [] ins
  · intro snap i ct src
    simp [modify_notebook, pyListInsert_length]

/-- Claim C7: `move_cell` with `from_index = to_index = k`, for `k` in
range, succeeds and leaves the cell sequence exactly unchanged. -/
theorem move_cell_same_index (cells : List Cell) (k : Int)
    (h0 : 0 ≤ k) (h1 : k < (cells.length : Int)) :
    modify_notebook cells (.move k k) = .ok (cells, ⟨true, "move", cells.length⟩) := by
  have hk : k.toNat < cells.length := by omega
  have hlen : (cells.eraseIdx k.toNat).length = cells.length - 1 := by
    rw [List.length_eraseIdx]
    simp [hk]
  have hcast : ((k.toNat : Nat) : Int) = k := by omega
  have hins : pyListInsert (cells.eraseIdx k.toNat) ((k.toNat : Nat) : Int)
      (cells.getD k.toNat default) = cells := by
    rw [pyListInsert_natCast _ _ _ (by omega)]
    exact eraseIdx_reinsert cells k.toNat default hk
  rw [hcast] at hins
  simp only [modify_notebook]
  rw [if_neg (by omega), if_neg (by omega), hins]

/-- Claim C7 (witness). -/
theorem move_cell_same_index_witness :
    modify_notebook [newInsertCell "code" "a"] (.move 0 0)
      = .ok ([newInsertCell "code" "a"], ⟨true, "move", 1⟩) :=
  move_cell_same_index [newInsertCell "code" "a"] 0 (by decide) (by decide)

/-- Claim C8: `insert_cell` at `cell_index = len(cells)` appends the
fresh cell at the end and `insert_cell` at `cell_index = 0` prepends
it; in both cases the pre-existing cells keep their relative order (the
result is literally `cells ++ [new]` resp. `new :: cells`) and the
returned `cell_count` is `len(cells) + 1`. -/
theorem insert_cell_append_prepend (cells : List Cell) (ct src : String) :
    modify_notebook cells (.insert (cells.length : Int) ct src)
      = .ok (cells ++ [newInsertCell ct src], ⟨true, "insert", cells.length + 1⟩)
    ∧ modify_notebook cells (.insert 0 ct src)
      = .ok (newInsertCell ct src :: cells, ⟨true, "insert", cells.length + 1⟩) := by
  have happ : pyListInsert cells (cells.length : Int) (newInsertCell ct src)
      = cells ++ [newInsertCell ct src] := by
    rw [pyListInsert_natCast _ _ _ (le_refl _)]
    simp
  have hpre : pyListInsert cells 0 (newInsertCell ct src)
      = newInsertCell ct src :: cells := by
    simp [pyListInsert]
  constructor
  · simp only [modify_notebook, happ]
    simp
  · simp only [modify_notebook, hpre]
    simp

/-- Claim C9: `insert_cell` with `cell_index` strictly beyond the end
does not fail: Python `list.insert` clamps, so it appends the fresh
cell and returns `cell_count = n + 1`; at the same out-of-range index,
`update_cell`, `delete_cell` and `move_cell` all raise an
index-out-of-range error. -/
theorem insert_cell_beyond_end (cells : List Cell) (i : Int) (ct src : String)
    (h : (cells.length : Int) < i) :
    modify_notebook cells (.insert i ct src)
      = .ok (cells ++ [newInsertCell ct src], ⟨true, "insert", cells.length + 1⟩)
    ∧ modify_notebook cells (.update i src)
      = .error (.indexError ("Cell index " ++ toString i ++ " out of range"))
    ∧ modify_notebook cells (.delete i)
      = .error (.indexError ("Cell index " ++ toString i ++ " out of range"))
    ∧ modify_notebook cells (.move i 0)
      = .error (.indexError ("from_index " ++ toString i ++ " out of range"))
    ∧ ∃ msg, modify_notebook cells (.move 0 i) = .error (.indexError msg) := by
  have hins : pyListInsert cells i (newInsertCell ct src)
      = cells ++ [newInsertCell ct src] := by
    simp only [pyListInsert]
    rw [if_neg (by omega)]
    have hm : min i.toNat cells.length = cells.length := by omega
    rw [hm]
    simp
  refine ⟨?_, ?_, ?_, ?_, ?_⟩
  · simp only [modify_notebook, hins]
    simp
  · simp only [modify_notebook]
    rw [if_pos (by omega)]
  · simp only [modify_notebook]
    rw [if_pos (by omega)]
  · simp only [modify_notebook]
    rw [if_pos (by omega)]
  · by_cases hc : cells.length = 0
    · refine ⟨"from_index " ++ toString (0 : Int) ++ " out of range", ?_⟩
      simp only [modify_notebook]
      rw [if_pos (by omega)]
    · refine ⟨"to_index " ++ toString i ++ " out of range", ?_⟩
      simp only [modify_notebook]
      rw [if_neg (by omega), if_pos (by omega)]

/-- Claim C9 (witness). -/
theorem insert_cell_beyond_end_witness :
    modify_notebook [] (.insert 1 "code" "s")
      = .ok ([] ++ [newInsertCell "code" "s"], ⟨true, "insert", 1⟩)
    ∧ modify_notebook [] (.update 1 "s")
      = .error (.indexError ("Cell index " ++ toString (1 : Int) ++ " out of range"))
    ∧ modify_notebook [] (.delete 1)
      = .error (.indexError ("Cell index " ++ toString (1 : Int) ++ " out of range"))
    ∧ modify_notebook [] (.move 1 0)
      = .error (.indexError ("from_index " ++ toString (1 : Int) ++ " out of range"))
    ∧ ∃ msg, modify_notebook [] (.move 0 1) = .error (.indexError msg) :=
  insert_cell_beyond_end [] 1 "code" "s" (by decide)

/-- Claim C10: a successful `update_cell` at an in-range index changes
only the `source` field of the target cell: the result is exactly
`setCellSource cells idx source`, which keeps the cell count, leaves
every cell at a position other than `idx` unchanged, and at `idx`
rewrites `source` while keeping `cell_type`, `metadata`, `outputs` and
`execution_count` (the target cell equals the old cell with only its
source replaced). -/
theorem update_cell_frame (cells : List Cell) (i : Int) (j : Nat) (src : String) (d : Cell)
    (h0 : 0 ≤ i) (h1 : i < (cells.length : Int)) (hj : j ≠ i.toNat) :
    modify_notebook cells (.update i src)
      = .ok (setCellSource cells i.toNat src, ⟨true, "update", cells.length⟩)
    ∧ (setCellSource cells i.toNat src).length = cells.length
    ∧ (setCellSource cells i.toNat src).getD j d = cells.getD j d
    ∧ (setCellSource cells i.toNat src).getD i.toNat d
        = { cells.getD i.toNat d with source := src } := by
  have hlen := setCellSource_length cells i.toNat src
  refine ⟨?_, hlen, setCellSource_getD_ne cells i.toNat j src d hj,
    setCellSource_getD_eq cells i.toNat src d (by omega)⟩
  simp only [modify_notebook]
  rw [if_neg (by omega), hlen]

/-- Claim C10 (witness). -/
theorem update_cell_frame_witness :
    modify_notebook [newInsertCell "code" "a", newInsertCell "markdown" "b"] (.update 0 "z")
      = .ok (setCellSource [newInsertCell "code" "a", newInsertCell "markdown" "b"] 0 "z",
             ⟨true, "update", 2⟩)
    ∧ (setCellSource [newInsertCell "code" "a", newInsertCell "markdown" "b"] 0 "z").length = 2
    ∧ (setCellSource [newInsertCell "code" "a", newInsertCell "markdown" "b"] 0 "z").getD 1
          default
      = [newInsertCell "code" "a", newInsertCell "markdown" "b"].getD 1 default
    ∧ (setCellSource [newInsertCell "code" "a", newInsertCell "markdown" "b"] 0 "z").getD 0
          default
      = { [newInsertCell "code" "a", newInsertCell "markdown" "b"].getD 0 default
            with source := "z" } :=
  update_cell_frame [newInsertCell "code" "a", newInsertCell "markdown" "b"] 0 1 "z" default
    (by decide) (by decide) (by decide)

end NbBridge
